import Mathlib

/-!
Shallow embedding of the batch image-assessment pipeline in `src/app.py`
(kindergarten assessment transcription app, version "v3.1").

External effects (the remote model calls of the `google.generativeai`
client and `json.loads` of the reply text) are modelled as explicit
parameters: an environment mapping a prompt to the reply of the already
fallback-wrapped call, per-attempt outcomes for the transcription call,
and a decoder standing for `json.loads` on the comment reply.  Python
exceptions are modelled with `Except`/`Option`; Python dicts (which are
insertion ordered) are modelled as association lists with
insert-or-update-in-place semantics.
-/

namespace App

/-- One student row of a parsed transcription reply: the dict
`{"name": ..., "scores": [...], "note": ...}` (fields after the
`dict.get` defaults of the flatten loop have been applied). -/
structure SData where
  name : String
  scores : List String
  note : String
deriving Repr, DecidableEq

/-- One parsed transcription result: the dict
`{"area": ..., "headers": [...], "students": [...]}` (fields after the
`dict.get` defaults of the flatten loop have been applied). -/
structure TData where
  area : String
  headers : List String
  students : List SData
deriving Repr, DecidableEq

/-- One entry of the `details` list built by the flatten loop:
`{"idx": h_name, "score": sc}`. -/
structure Detail where
  idx : String
  score : String
deriving Repr, DecidableEq

/-- One entry of `raw_records`: `{"name", "area", "details", "note"}`. -/
structure RawRecord where
  name : String
  area : String
  details : List Detail
  note : String
deriving Repr, DecidableEq

/-- An uploaded image file; only its name is observable in the embedding
(the pixel content is consumed by the opaque remote call). -/
structure ImgFile where
  name : String
deriving Repr, DecidableEq

/-- A narrative comment: the dict `{"observation": ..., "suggestion": ...}`. -/
structure Comment where
  observation : String
  suggestion : String
deriving Repr, DecidableEq

/-! ### `safe_generate_content` (app.py lines 59-90)

The two remote calls (primary model `gemini-3.0-pro`, backup model
`gemini-1.5-flash`) are modelled by their outcomes for the given inputs:
`Except.ok text` for a normal reply, `Except.error msg` for a raised
exception with message `msg`. -/

/-- `safe_generate_content`: try the primary model; on any exception try
the backup model with the same inputs; if that also raises, raise
`Exception(f"所有模型嘗試皆失敗。原因: {e2}")` built from the backup
model's error only. -/
def safe_generate_content (primary backup : Except String String) :
    Except String String :=
  match primary with
  | .ok t => .ok t
  | .error _ =>
    match backup with
    | .ok t => .ok t
    | .error e2 => .error ("所有模型嘗試皆失敗。原因: " ++ e2)

/-! ### `analyze_single_image` retry loop (app.py lines 127-152)

One attempt = `safe_generate_content` + fence stripping + `json.loads`,
abstracted as `attempts k : Except String TData`: the outcome of attempt
number `k` (`Except.error e` when the attempt raised with message `e`).
`time.sleep(2 * (attempt + 1))` is recorded in a list of delays. -/

/-- Python's `needle in haystack` substring test. -/
def substrIn (needle haystack : String) : Bool :=
  haystack.toList.tails.any (fun t => needle.toList.isPrefixOf t)

/-- `"429" in last_error`: Python substring test on the error message. -/
def has429 (s : String) : Bool :=
  substrIn "429" s

/-- The body of `for attempt in range(max_retries)` with `fuel` iterations
left, current attempt index `attempt`, the `last_error` variable, and the
backoff delays slept so far.  On success return the data; on an error
containing "429" sleep `2 * (attempt + 1)` and continue; on any other
error return the failure at once.  When the range is exhausted return
`f"重試 {max_retries} 次後失敗。原因: {last_error}"`. -/
def retryFrom (attempts : Nat → Except String TData) :
    Nat → Nat → String → List Nat → Except String TData × List Nat
  | 0, _, lastError, delays =>
      (.error ("重試 3 次後失敗。原因: " ++ lastError), delays)
  | fuel + 1, attempt, _, delays =>
    match attempts attempt with
    | .ok d => (.ok d, delays)
    | .error e =>
      if has429 e then
        retryFrom attempts fuel (attempt + 1) e (delays ++ [2 * (attempt + 1)])
      else
        (.error e, delays)

/-- `analyze_single_image` with `max_retries = 3`: the retry loop starting
at attempt 0 with `last_error = ""` and no delays slept yet.  The result
pairs the returned dict (`{"success": True, "data": ...}` as `.ok`,
`{"success": False, "error": ...}` as `.error`) with the backoff delays. -/
def analyze_single_image (attempts : Nat → Except String TData) :
    Except String TData × List Nat :=
  retryFrom attempts 3 0 "" []

/-! ### `process_images_parallel` (app.py lines 154-183)

The loop iterates `concurrent.futures.as_completed(future_to_file)`, i.e.
the futures in the order they complete; that order is some permutation of
the submitted files.  The embedding therefore takes the completion order
as the list iterated and each file's final outcome as a function. -/

/-- `process_images_parallel`: collect `outcome` of each file in
completion order; successes append `outcome["data"]` to `results`,
failures append `f"{f.name}: {outcome['error']}"` to `errors`; always
return the pair `(results, errors)`. -/
def process_images_parallel (completionOrder : List ImgFile)
    (outcome : ImgFile → Except String TData) :
    List TData × List String :=
  completionOrder.foldl
    (fun acc f =>
      match outcome f with
      | .ok d => (acc.1 ++ [d], acc.2)
      | .error e => (acc.1, acc.2 ++ [f.name ++ ": " ++ e]))
    ([], [])

/-! ### The flatten loop (app.py lines 300-322)

For each successful result and each of its students, the loop builds one
display row (a Python dict, insertion ordered) and one entry of
`raw_records`. -/

/-- Python dict assignment `d[k] = v` on an insertion-ordered dict
modelled as an association list: update in place when the key exists,
otherwise append at the end. -/
def dictInsert (row : List (String × String)) (k v : String) :
    List (String × String) :=
  if row.any (fun p => p.1 = k) then
    row.map (fun p => if p.1 = k then (k, v) else p)
  else
    row ++ [(k, v)]

/-- The synthesized label `f"指標{i+1}"` used when `i` is out of range of
`headers` (0-based position `i`, displayed 1-based). -/
def placeholderLabel (i : Nat) : String :=
  "指標" ++ toString (i + 1)

/-- The inner loop `for i, sc in enumerate(scores)` of the flatten step:
only positions `i < 4` are processed; the label is `headers[i]` when in
range and the placeholder otherwise; each processed score is written into
the row dict and appended to `details`. -/
def flattenLoop (headers : List String) :
    List String → Nat → List (String × String) → List Detail →
    List (String × String) × List Detail
  | [], _, row, details => (row, details)
  | sc :: rest, i, row, details =>
    if i < 4 then
      let hName := if i < headers.length then headers.getD i "" else placeholderLabel i
      flattenLoop headers rest (i + 1) (dictInsert row hName sc)
        (details ++ [⟨hName, sc⟩])
    else
      flattenLoop headers rest (i + 1) row details

/-- The fallible version of the same loop: `headers[i]` is the partial
list access `headers.get?` guarded by `i < len(headers)`; a `none`
result stands for a raised `IndexError`. -/
def flattenLoopE (headers : List String) :
    List String → Nat → List (String × String) → List Detail →
    Option (List (String × String) × List Detail)
  | [], _, row, details => some (row, details)
  | sc :: rest, i, row, details =>
    if i < 4 then
      match (if i < headers.length then headers.get? i else some (placeholderLabel i)) with
      | none => none
      | some hName =>
          flattenLoopE headers rest (i + 1) (dictInsert row hName sc)
            (details ++ [⟨hName, sc⟩])
    else
      flattenLoopE headers rest (i + 1) row details

/-- Flattening of one student `s` of a result with the given `area` and
`headers`: the row starts `{"幼兒姓名": name, "學習區": area}`, the score
loop fills the indicator cells and the detail list, and
`row["備註"] = note` closes the row.  Returns the display row and the
`raw_records` entry. -/
def flattenStudent (area : String) (headers : List String) (s : SData) :
    List (String × String) × RawRecord :=
  let start := dictInsert (dictInsert [] "幼兒姓名" s.name) "學習區" area
  let scored := flattenLoop headers s.scores 0 start []
  (dictInsert scored.1 "備註" s.note, ⟨s.name, area, scored.2, s.note⟩)

/-- The fallible version of `flattenStudent`. -/
def flattenStudentE (area : String) (headers : List String) (s : SData) :
    Option (List (String × String) × RawRecord) :=
  match flattenLoopE headers s.scores 0
      (dictInsert (dictInsert [] "幼兒姓名" s.name) "學習區" area) [] with
  | none => none
  | some scored => some (dictInsert scored.1 "備註" s.note, ⟨s.name, area, scored.2, s.note⟩)

/-- The outer flatten loops `for res in results: for s in res.get("students", [])`
accumulating `all_data` (display rows) and `raw_records`. -/
def flattenResults (results : List TData) :
    List (List (String × String)) × List RawRecord :=
  results.foldl
    (fun acc res =>
      res.students.foldl
        (fun acc2 s =>
          let fr := flattenStudent res.area res.headers s
          (acc2.1 ++ [fr.1], acc2.2 ++ [fr.2]))
        acc)
    ([], [])

/-- Reading indicator slot `i` (0-based, `i < 4`) of a flattened record:
the score at position `i` of the detail list, `none` when that position
is unpopulated. -/
def detailSlot (details : List Detail) (i : Nat) : Option String :=
  (details.get? i).map (fun d => d.score)

/-- The detail list the flatten loop produces, written as a direct
recursion (used to characterize `flattenLoop`). -/
def mkDetails (headers : List String) : List String → Nat → List Detail
  | [], _ => []
  | sc :: rest, i =>
    if i < 4 then
      ⟨if i < headers.length then headers.getD i "" else placeholderLabel i, sc⟩ ::
        mkDetails headers rest (i + 1)
    else
      mkDetails headers rest (i + 1)

/-! ### Grouping by child (app.py lines 350-354)

`grouped` is a Python dict from child name to the list of that child's
raw records, built by one pass over `raw_records`. -/

/-- One iteration of the grouping loop: create `grouped[name] = []` when
absent, then `grouped[name].append(r)`. -/
def groupInsert (g : List (String × List RawRecord)) (r : RawRecord) :
    List (String × List RawRecord) :=
  if g.any (fun p => p.1 = r.name) then
    g.map (fun p => if p.1 = r.name then (p.1, p.2 ++ [r]) else p)
  else
    g ++ [(r.name, [r])]

/-- The grouping loop over all of `raw_records`. -/
def group_by_child (records : List RawRecord) :
    List (String × List RawRecord) :=
  records.foldl groupInsert []

/-- Reading `grouped[n]` (the empty list when `n` is not a key): the
value of the first entry whose key is `n`. -/
def lookupGroup : List (String × List RawRecord) → String → List RawRecord
  | [], _ => []
  | p :: rest, n => if p.1 = n then p.2 else lookupGroup rest n

/-! ### `generate_teacher_comments_fast` (app.py lines 185-205)

The fallback-wrapped model call is abstracted as `env : String → Except
String String` (prompt to reply of `safe_generate_content`, `.error` for
a raised exception), and `json.loads` on the cleaned reply as
`dec : String → Option Comment` (`none` for a parse failure). -/

/-- A single-quote character (Python's string repr quoting). -/
def sq : String := String.singleton (Char.ofNat 39)

/-- Python's `str` of a list of strings, e.g. `['A', 'R']`, as produced
by `f"成績:{[d['score'] for d in r['details']]}"`. -/
def pyListRepr (xs : List String) : String :=
  "[" ++ String.intercalate ", " (xs.map (fun x => sq ++ x ++ sq)) ++ "]"

/-- The `data_text` summary accumulated over the child's records. -/
def dataText (name : String) (records : List RawRecord) : String :=
  records.foldl
    (fun acc r =>
      acc ++ "[" ++ r.area ++ "] 備註:" ++ r.note ++ "\n" ++
        "成績:" ++ pyListRepr (r.details.map (fun d => d.score)) ++ "\n")
    ("幼兒：" ++ name ++ "\n")

/-- The comment prompt built from the child's name (the f-string of
lines 191-197; literal braces of the JSON example written \x7b/\x7d). -/
def commentPrompt (name : String) : String :=
  "\n    你是一位資深的幼兒園園長。請為 " ++ name ++
  " 寫一份【A4精簡版】評語。\n    限制：總字數 200 字內。語氣溫暖、具體且正向。\n    請根據上述的學習區表現與備註來撰寫。\n    格式 JSON：\n    \x7b \"observation\": \"觀察...\", \"suggestion\": \"建議...\" \x7d\n    "

/-- Python's `str.replace` over character lists: replace every
non-overlapping occurrence of `pat`, scanning left to right (`fuel`
bounds the scan by the input length). -/
def replaceAux (pat rep : List Char) : Nat → List Char → List Char
  | 0, s => s
  | fuel + 1, s =>
    match s with
    | [] => []
    | c :: rest =>
      if pat ≠ [] ∧ pat.isPrefixOf s then
        rep ++ replaceAux pat rep fuel (s.drop pat.length)
      else
        c :: replaceAux pat rep fuel rest

/-- Python's `str.replace` on strings. -/
def strReplace (s pat rep : String) : String :=
  String.mk (replaceAux pat.toList rep.toList s.toList.length s.toList)

/-- Whitespace for Python's `str.strip`. -/
def isWS (c : Char) : Bool :=
  c = ' ' || c = '\t' || c = '\n' || c = '\r'

/-- Python's `str.strip`: drop leading and trailing whitespace. -/
def strStrip (s : String) : String :=
  String.mk (((s.toList.dropWhile isWS).reverse.dropWhile isWS).reverse)

/-- The cleanup of line 202: drop markdown fences, then strip. -/
def stripFences (s : String) : String :=
  strStrip (strReplace (strReplace s "```json" "") "```" "")

/-- The fixed default comment of line 205, returned on any failure. -/
def defaultComment : Comment :=
  ⟨"孩子在學校表現穩定，請親師多加溝通。", "陪伴是最好的禮物。"⟩

/-- `generate_teacher_comments_fast`: call the fallback-wrapped model on
the comment prompt at temperature 0.7, clean and parse the reply; on any
exception (network failure or parse failure, the bare `except:`) return
the fixed default comment.  Note the source builds `data_text` from the
records but never interpolates it into the prompt; the prompt depends on
the name only, and the records are dead data here as in the source. -/
def generate_teacher_comments_fast (env : String → Except String String)
    (dec : String → Option Comment) (name : String) (records : List RawRecord) :
    Comment :=
  let _dt := dataText name records
  match env (commentPrompt name) with
  | .error _ => defaultComment
  | .ok text =>
    match dec (stripFences text) with
    | some c => c
    | none => defaultComment

/-! ### `create_word_report` (app.py lines 207-286)

The Word document is modelled as the list of its textual elements in
emission order (headings, paragraphs, table rows, page breaks).  The
narrative comment of each child is produced INSIDE the loop by a call to
`generate_teacher_comments_fast`, i.e. through the remote model
environment `env`. -/

/-- The document elements emitted for one child: optional page break,
title, name line, table header, per-record category row and detail rows,
spacer, the two comment sections (generated through `env`), and the
legend footer. -/
def renderChild (env : String → Except String String)
    (dec : String → Option Comment) (idx : Nat) (name : String)
    (records : List RawRecord) : List String :=
  (if 0 < idx then ["<page-break>"] else []) ++
  ["篤行非營利幼兒園  幼兒學習區個別評量報告",
   "幼兒姓名：" ++ name ++ "     日期：2026年___月___日",
   "各區學習指標內容 | 結果"] ++
  (records.foldl
    (fun acc r =>
      acc ++ ["■ " ++ r.area] ++
        r.details.map (fun d => d.idx ++ " | " ++ d.score))
    []) ++
  [""] ++
  (let c := generate_teacher_comments_fast env dec name records
   ["【老師的觀察】", c.observation, "【居家互動小撇步】", c.suggestion]) ++
  ["評量代號：A(主動熟練) R(表現良好) D(發展中) N(需協助)"]

/-- The `for idx, (name, records) in enumerate(grouped_data.items())`
loop, `idx` counting from 0. -/
def reportLoop (env : String → Except String String)
    (dec : String → Option Comment) :
    Nat → List (String × List RawRecord) → List String
  | _, [] => []
  | idx, (name, records) :: rest =>
      renderChild env dec idx name records ++ reportLoop env dec (idx + 1) rest

/-- `create_word_report` over the grouped data (insertion-ordered dict as
association list). -/
def create_word_report (env : String → Except String String)
    (dec : String → Option Comment)
    (grouped : List (String × List RawRecord)) : List String :=
  reportLoop env dec 0 grouped

/-! ### Concrete fixtures used by counterexamples and witnesses -/

/-- A transcription result of a first image: area 語文區, full headers,
one student "Amy". -/
def dataA : TData := ⟨"語文區", ["H1", "H2", "H3", "H4"], [⟨"Amy", ["A"], "n1"⟩]⟩

/-- A transcription result of a second image: area 數學區, full headers,
the same student "Amy". -/
def dataB : TData := ⟨"數學區", ["K1", "K2", "K3", "K4"], [⟨"Amy", ["R"], "n2"⟩]⟩

/-- First uploaded image. -/
def imgOne : ImgFile := ⟨"p1.jpg"⟩

/-- Second uploaded image. -/
def imgTwo : ImgFile := ⟨"p2.jpg"⟩

/-- Per-file outcomes: both images succeed, `imgOne` with `dataA` and
`imgTwo` with `dataB`. -/
def outcomeAB (f : ImgFile) : Except String TData :=
  if f.name = "p1.jpg" then .ok dataA else .ok dataB

/-- The raw record that flattening `dataA` produces for Amy. -/
def recAmyA : RawRecord := ⟨"Amy", "語文區", [⟨"H1", "A"⟩], "n1"⟩

/-- The raw record that flattening `dataB` produces for Amy. -/
def recAmyB : RawRecord := ⟨"Amy", "數學區", [⟨"K1", "R"⟩], "n2"⟩

/-- A grouped-data fixture with the single child Amy. -/
def groupedAmy : List (String × List RawRecord) := [("Amy", [recAmyA])]

/-- A model environment whose calls always succeed with a fixed reply. -/
def envOkReply (_ : String) : Except String String := .ok "reply-1"

/-- A model environment whose calls always raise. -/
def envDown (_ : String) : Except String String := .error "both models down"

/-- A decoder that parses the fixed reply into a concrete comment and
rejects everything else. -/
def decFixed (s : String) : Option Comment :=
  if s = "reply-1" then some ⟨"觀察甲", "建議乙"⟩ else none

/-- Attempt outcomes that are rate limited twice and then succeed. -/
def attemptsW (k : Nat) : Except String TData :=
  if k < 2 then .error "429" else .ok dataA

/-! ### Helper lemmas -/

theorem process_foldl_acc (outcome : ImgFile → Except String TData)
    (order : List ImgFile) (acc : List TData × List String) :
    order.foldl
      (fun acc f =>
        match outcome f with
        | .ok d => (acc.1 ++ [d], acc.2)
        | .error e => (acc.1, acc.2 ++ [f.name ++ ": " ++ e]))
      acc =
    (acc.1 ++ order.filterMap (fun f => (outcome f).toOption),
     acc.2 ++ order.filterMap (fun f =>
        match outcome f with
        | .ok _ => none
        | .error e => some (f.name ++ ": " ++ e))) := by
  induction order generalizing acc with
  | nil => simp
  | cons f rest ih =>
    cases h : outcome f with
    | ok d => simp [List.foldl_cons, h, ih, Except.toOption]
    | error e => simp [List.foldl_cons, h, ih, Except.toOption]

theorem process_images_parallel_eq (order : List ImgFile)
    (outcome : ImgFile → Except String TData) :
    process_images_parallel order outcome =
      (order.filterMap (fun f => (outcome f).toOption),
       order.filterMap (fun f =>
          match outcome f with
          | .ok _ => none
          | .error e => some (f.name ++ ": " ++ e))) := by
  simpa [process_images_parallel] using process_foldl_acc outcome order ([], [])

theorem lookupGroup_map_ne (r : RawRecord) (n : String) (hrn : ¬ r.name = n) :
    ∀ g : List (String × List RawRecord),
      lookupGroup (g.map (fun p => if p.1 = r.name then (p.1, p.2 ++ [r]) else p)) n =
        lookupGroup g n
  | [] => rfl
  | p :: rest => by
    have hnr : ¬ n = r.name := fun h => hrn h.symm
    by_cases hp : p.1 = r.name
    · have hn : ¬ p.1 = n := fun h => hrn (hp ▸ h)
      simp [lookupGroup, hp, hn, hrn, hnr, lookupGroup_map_ne r n hrn rest]
    · by_cases hn : p.1 = n
      · simp [lookupGroup, hp, hn, hrn, hnr]
      · simp [lookupGroup, hp, hn, lookupGroup_map_ne r n hrn rest]

theorem lookupGroup_none_of_not_mem (n : String) :
    ∀ g : List (String × List RawRecord),
      ¬ (g.any (fun p => p.1 = n)) = true → lookupGroup g n = []
  | [] => fun _ => rfl
  | p :: rest => fun h => by
    have hp : ¬ p.1 = n := fun hh => h (by simp [List.any_cons, hh])
    have hrest : ¬ (rest.any (fun p => p.1 = n)) = true :=
      fun hh => h (by simp [List.any_cons, hh])
    simpa [lookupGroup, hp] using
      lookupGroup_none_of_not_mem n rest hrest

theorem lookupGroup_groupInsert (g : List (String × List RawRecord))
    (r : RawRecord) (n : String) :
    lookupGroup (groupInsert g r) n =
      lookupGroup g n ++ if r.name = n then [r] else [] := by
  by_cases hmem : (g.any (fun p => p.1 = r.name)) = true
  · simp only [groupInsert, hmem, if_true]
    induction g with
    | nil => simp at hmem
    | cons p rest ih =>
      by_cases hp : p.1 = r.name
      · by_cases hn : p.1 = n
        · have hrn : r.name = n := hp ▸ hn
          simp [lookupGroup, hp, hn, hrn]
        · have hrn : ¬ r.name = n := fun h => hn (hp.trans h)
          simp [lookupGroup, hp, hn, hrn,
            lookupGroup_map_ne r n hrn rest]
      · by_cases hn : p.1 = n
        · have hrn : ¬ r.name = n := fun h => hp (hn ▸ h ▸ rfl)
          have hnr : ¬ n = r.name := fun h => hrn h.symm
          simp [lookupGroup, hp, hn, hrn, hnr]
        · have hmem' : (rest.any (fun p => p.1 = r.name)) = true := by
            simpa [List.any_cons, hp] using hmem
          simpa [lookupGroup, hp, hn] using ih hmem'
  · simp only [groupInsert, hmem, if_false]
    by_cases hrn : r.name = n
    · have hnone : lookupGroup g n = [] :=
        lookupGroup_none_of_not_mem n g (hrn ▸ hmem)
      rw [hnone]
      induction g with
      | nil => simp [lookupGroup, hrn]
      | cons p rest ih =>
        have hp : ¬ p.1 = r.name := fun hh => hmem (by simp [List.any_cons, hh])
        have hpn : ¬ p.1 = n := fun hh => hp (hrn ▸ hh)
        have hmem' : ¬ (rest.any (fun p => p.1 = r.name)) = true :=
          fun hh => hmem (by simp [List.any_cons, hh])
        have hnone' : lookupGroup rest n = [] :=
          lookupGroup_none_of_not_mem n rest (hrn ▸ hmem')
        simpa [lookupGroup, hpn, hrn] using ih hmem' hnone'
    · induction g with
      | nil => simp [lookupGroup, hrn]
      | cons p rest ih =>
        have hmem' : ¬ (rest.any (fun p => p.1 = r.name)) = true :=
          fun hh => hmem (by simp [List.any_cons, hh])
        by_cases hn : p.1 = n
        · simp [lookupGroup, hn, hrn]
        · simpa [lookupGroup, hn, hrn] using ih hmem'

theorem lookupGroup_foldl (records : List RawRecord)
    (g : List (String × List RawRecord)) (n : String) :
    lookupGroup (records.foldl groupInsert g) n =
      lookupGroup g n ++ records.filter (fun r => r.name = n) := by
  induction records generalizing g with
  | nil => simp
  | cons r rest ih =>
    by_cases hr : r.name = n
    · simp [List.foldl_cons, ih, lookupGroup_groupInsert, hr,
        List.filter_cons, List.append_assoc]
    · simp [List.foldl_cons, ih, lookupGroup_groupInsert, hr, List.filter_cons]

theorem lookupGroup_group_by_child (records : List RawRecord) (n : String) :
    lookupGroup (group_by_child records) n =
      records.filter (fun r => r.name = n) := by
  simpa [group_by_child, lookupGroup] using lookupGroup_foldl records [] n

theorem flattenLoop_snd (headers : List String) :
    ∀ (scores : List String) (i : Nat) (row : List (String × String))
      (details : List Detail),
      (flattenLoop headers scores i row details).2 =
        details ++ mkDetails headers scores i
  | [], _, _, _ => by simp [flattenLoop, mkDetails]
  | sc :: rest, i, row, details => by
    by_cases hi : i < 4
    · simp [flattenLoop, mkDetails, hi, flattenLoop_snd headers rest]
    · simp [flattenLoop, mkDetails, hi, flattenLoop_snd headers rest]

theorem mkDetails_get (headers : List String) :
    ∀ (scores : List String) (i j : Nat), i + j < 4 →
      (mkDetails headers scores i).get? j =
        (scores.get? j).map (fun sc =>
          ⟨if i + j < headers.length then headers.getD (i + j) ""
            else placeholderLabel (i + j), sc⟩)
  | [], _, _, _ => by simp [mkDetails]
  | sc :: rest, i, j, h => by
    have hi : i < 4 := lt_of_le_of_lt (Nat.le_add_right i j) h
    cases j with
    | zero => simp [mkDetails, hi]
    | succ j' =>
      have h' : (i + 1) + j' < 4 := by omega
      have harith : (i + 1) + j' = i + (j' + 1) := by omega
      simpa [mkDetails, hi, harith] using mkDetails_get headers rest (i + 1) j' h'

theorem mkDetails_length_le (headers : List String) :
    ∀ (scores : List String) (i : Nat),
      (mkDetails headers scores i).length ≤ scores.length
  | [], _ => by simp [mkDetails]
  | sc :: rest, i => by
    by_cases hi : i < 4
    · simpa [mkDetails, hi] using mkDetails_length_le headers rest (i + 1)
    · simp only [mkDetails, hi, if_false, List.length_cons]
      exact le_trans (mkDetails_length_le headers rest (i + 1)) (Nat.le_succ _)

theorem mkDetails_length_all (headers : List String) :
    ∀ (scores : List String) (i : Nat), i + scores.length ≤ 4 →
      (mkDetails headers scores i).length = scores.length
  | [], _, _ => by simp [mkDetails]
  | sc :: rest, i, h => by
    have hi : i < 4 := by simp at h; omega
    have h' : (i + 1) + rest.length ≤ 4 := by simp at h; omega
    simp [mkDetails, hi, mkDetails_length_all headers rest (i + 1) h']

theorem mkDetails_nil_of_ge (headers : List String) :
    ∀ (scores : List String) (i : Nat), 4 ≤ i →
      mkDetails headers scores i = []
  | [], _, _ => rfl
  | sc :: rest, i, h => by
    have hi : ¬ i < 4 := by omega
    simpa [mkDetails, hi] using
      mkDetails_nil_of_ge headers rest (i + 1) (by omega)

theorem flattenLoop_take (headers : List String) :
    ∀ (scores : List String) (i : Nat) (row : List (String × String))
      (details : List Detail),
      flattenLoop headers scores i row details =
        flattenLoop headers (scores.take (4 - i)) i row details
  | [], _, _, _ => by simp
  | sc :: rest, i, row, details => by
    by_cases hi : i < 4
    · have h4 : 4 - i = (4 - (i + 1)) + 1 := by omega
      rw [h4, List.take_succ_cons]
      simp only [flattenLoop, hi, if_true]
      exact flattenLoop_take headers rest (i + 1) _ _
    · have h4 : 4 - i = 0 := by omega
      rw [h4, List.take_zero]
      simp only [flattenLoop, hi, if_false]
      have : ∀ (ss : List String) (k : Nat), 4 ≤ k →
          flattenLoop headers ss k row details = (row, details) := by
        intro ss
        induction ss with
        | nil => intro k _; rfl
        | cons x xs ih =>
          intro k hk
          have : ¬ k < 4 := by omega
          simpa [flattenLoop, this] using ih (k + 1) (by omega)
      exact this rest (i + 1) (by omega)

theorem flattenLoopE_eq (headers : List String) :
    ∀ (scores : List String) (i : Nat) (row : List (String × String))
      (details : List Detail),
      flattenLoopE headers scores i row details =
        some (flattenLoop headers scores i row details)
  | [], _, _, _ => rfl
  | sc :: rest, i, row, details => by
    by_cases hi : i < 4
    · by_cases hh : i < headers.length
      · have hget : headers.get? i = some (headers.getD i "") := by
          rw [List.get?_eq_get hh, List.getD_eq_getElem?_getD,
            List.getElem?_eq_getElem hh]
          rfl
        simp [flattenLoopE, flattenLoop, hi, hh, hget,
          flattenLoopE_eq headers rest]
      · simp [flattenLoopE, flattenLoop, hi, hh, flattenLoopE_eq headers rest]
    · simp [flattenLoopE, flattenLoop, hi, flattenLoopE_eq headers rest]

theorem flattenStudentE_eq (area : String) (headers : List String) (s : SData) :
    flattenStudentE area headers s = some (flattenStudent area headers s) := by
  simp [flattenStudentE, flattenStudent, flattenLoopE_eq]

theorem get?_eq_some_getD (l : List String) (i : Nat) (h : i < l.length) :
    l.get? i = some (l.getD i "") := by
  rw [List.get?_eq_get h, List.getD_eq_getElem?_getD, List.getElem?_eq_getElem h]
  rfl

theorem analyze_eq (a : Nat → Except String TData) :
    analyze_single_image a =
      match a 0 with
      | .ok d => (.ok d, [])
      | .error e0 =>
        if has429 e0 then
          match a 1 with
          | .ok d => (.ok d, [2])
          | .error e1 =>
            if has429 e1 then
              match a 2 with
              | .ok d => (.ok d, [2, 4])
              | .error e2 =>
                if has429 e2 then
                  (.error ("重試 3 次後失敗。原因: " ++ e2), [2, 4, 6])
                else (.error e2, [2, 4])
            else (.error e1, [2])
        else (.error e0, []) := rfl

theorem reportLoop_congr (env1 env2 : String → Except String String)
    (dec1 dec2 : String → Option Comment) :
    ∀ (l : List (String × List RawRecord)) (idx : Nat),
      (∀ p ∈ l, generate_teacher_comments_fast env1 dec1 p.1 p.2 =
        generate_teacher_comments_fast env2 dec2 p.1 p.2) →
      reportLoop env1 dec1 idx l = reportLoop env2 dec2 idx l
  | [], _, _ => rfl
  | (name, records) :: rest, idx, h => by
    have hc : generate_teacher_comments_fast env1 dec1 name records =
        generate_teacher_comments_fast env2 dec2 name records :=
      h (name, records) (by simp)
    have htail := reportLoop_congr env1 env2 dec1 dec2 rest (idx + 1)
      (fun p hp => h p (by simp [hp]))
    simp only [reportLoop, renderChild, hc, htail]

/-! ### Claim theorems -/

/-- Claim C7 (confirmed): every model call first tries the primary model
and on any exception silently retries the same inputs with the fallback
model; the call returns the primary's reply when the primary succeeds,
the fallback's reply when only the fallback succeeds, and raises only
when both attempts fail. -/
theorem C7_primary_then_fallback (p b : Except String String) :
    (∀ t, p = .ok t → safe_generate_content p b = .ok t) ∧
    (∀ e t, p = .error e → b = .ok t → safe_generate_content p b = .ok t) ∧
    ((∃ e, safe_generate_content p b = .error e) ↔
      (∃ e1, p = .error e1) ∧ (∃ e2, b = .error e2)) := by
  cases p <;> cases b <;> simp [safe_generate_content]

/-- Witness for C7 at a failing primary and a succeeding fallback. -/
theorem C7_witness :
    safe_generate_content (.error "404") (.ok "fallback-reply") =
      .ok "fallback-reply" :=
  (C7_primary_then_fallback (.error "404") (.ok "fallback-reply")).2.1
    "404" "fallback-reply" rfl rfl

/-- Claim C10 (confirmed): when both model attempts fail, the raised
exception is built from the fallback model's failure reason only; the
primary model's error message does not influence the raised message. -/
theorem C10_fallback_error_only (e1 e1' e2 : String) :
    safe_generate_content (.error e1) (.error e2) =
      .error ("所有模型嘗試皆失敗。原因: " ++ e2) ∧
    safe_generate_content (.error e1) (.error e2) =
      safe_generate_content (.error e1') (.error e2) :=
  ⟨rfl, rfl⟩

/-- Claim C8 (confirmed): grouping is a pure, idempotent and
deterministic function of its input: recomputing the grouped-by-child
mapping from the same flat batch records (also when they come from
flattening the same results) yields identical output on every call. -/
theorem C8_grouping_deterministic :
    (∀ records : List RawRecord,
      group_by_child records = group_by_child records) ∧
    (∀ results : List TData,
      group_by_child (flattenResults results).2 =
        group_by_child (flattenResults results).2) ∧
    (∀ r1 r2 : List RawRecord, r1 = r2 →
      group_by_child r1 = group_by_child r2) :=
  ⟨fun _ => rfl, fun _ => rfl, fun _ _ h => h ▸ rfl⟩

/-- Witness for C8 at a concrete record list. -/
theorem C8_witness : group_by_child [recAmyA] = group_by_child [recAmyA] :=
  C8_grouping_deterministic.2.2 [recAmyA] [recAmyA] rfl

/-- Claim C6 (confirmed): any failure of the narrative writer to obtain
or parse a valid model reply yields the fixed default comment instead of
propagating an error, and the writer always returns a comment (either
the parsed one or the default), so narrative failure never aborts report
generation. -/
theorem C6_narrative_default (env : String → Except String String)
    (dec : String → Option Comment) (name : String)
    (records : List RawRecord) :
    (∀ e, env (commentPrompt name) = .error e →
      generate_teacher_comments_fast env dec name records = defaultComment) ∧
    (∀ t, env (commentPrompt name) = .ok t → dec (stripFences t) = none →
      generate_teacher_comments_fast env dec name records = defaultComment) ∧
    (generate_teacher_comments_fast env dec name records = defaultComment ∨
      ∃ t c, env (commentPrompt name) = .ok t ∧ dec (stripFences t) = some c ∧
        generate_teacher_comments_fast env dec name records = c) := by
  refine ⟨?_, ?_, ?_⟩
  · intro e he; simp [generate_teacher_comments_fast, he]
  · intro t ht hd; simp [generate_teacher_comments_fast, ht, hd]
  · cases henv : env (commentPrompt name) with
    | error e => exact Or.inl (by simp [generate_teacher_comments_fast, henv])
    | ok t =>
      cases hdec : dec (stripFences t) with
      | none => exact Or.inl (by simp [generate_teacher_comments_fast, henv, hdec])
      | some c =>
        exact Or.inr ⟨t, c, rfl, hdec,
          by simp [generate_teacher_comments_fast, henv, hdec]⟩

/-- Witness for C6 at an environment whose calls always raise. -/
theorem C6_witness :
    generate_teacher_comments_fast envDown decFixed "Amy" [] = defaultComment :=
  (C6_narrative_default envDown decFixed "Amy" []).1 "both models down" rfl

/-- Claim C5 (confirmed): per-image failures never make the batch call
raise: the dispatcher always returns the `(results, failures)` pair,
and each failing image contributes the entry
`f"{name}: {error}"` with its error message preserved. -/
theorem C5_batch_partial_failure (order : List ImgFile)
    (outcome : ImgFile → Except String TData) :
    process_images_parallel order outcome =
      (order.filterMap (fun f => (outcome f).toOption),
       order.filterMap (fun f =>
          match outcome f with
          | .ok _ => none
          | .error e => some (f.name ++ ": " ++ e))) ∧
    (∀ f ∈ order, ∀ e, outcome f = .error e →
      (f.name ++ ": " ++ e) ∈ (process_images_parallel order outcome).2) := by
  refine ⟨process_images_parallel_eq order outcome, ?_⟩
  intro f hf e he
  rw [process_images_parallel_eq]
  exact List.mem_filterMap.mpr ⟨f, hf, by simp [he]⟩

/-- Witness for C5 at a single always-failing image. -/
theorem C5_witness :
    (imgOne.name ++ ": " ++ "boom") ∈
      (process_images_parallel [imgOne] (fun _ => .error "boom")).2 :=
  (C5_batch_partial_failure [imgOne] (fun _ => .error "boom")).2
    imgOne (by simp) "boom" rfl

/-- Claim C4 (confirmed): on a rate-limited (429) failure the retry loop
retries the same image up to 3 attempts with strictly increasing backoff
delays, fails immediately without retry on any other error, consults
only the first 3 attempts, and an image rate limited exactly twice then
succeeding on the third attempt returns success with exactly the 2
delays `[2, 4]`. -/
theorem C4_retry_policy (a : Nat → Except String TData) (e1 e2 : String)
    (d : TData) (h1 : a 0 = .error e1) (h2 : a 1 = .error e2)
    (h3 : a 2 = .ok d) (r1 : has429 e1 = true) (r2 : has429 e2 = true) :
    analyze_single_image a = (.ok d, [2, 4]) ∧
    (∀ (b : Nat → Except String TData) (e : String), has429 e = false →
      b 0 = .error e → analyze_single_image b = (.error e, [])) ∧
    (∀ b b' : Nat → Except String TData, (∀ k, k < 3 → b k = b' k) →
      analyze_single_image b = analyze_single_image b') ∧
    (∀ b : Nat → Except String TData,
      (analyze_single_image b).2.Chain' (fun x y => x < y)) := by
  refine ⟨?_, ?_, ?_, ?_⟩
  · rw [analyze_eq, h1]
    simp [r1, h2, r2, h3]
  · intro b e hf hb
    rw [analyze_eq, hb]
    simp [hf]
  · intro b b' h
    rw [analyze_eq, analyze_eq, h 0 (by omega), h 1 (by omega), h 2 (by omega)]
  · intro b
    rw [analyze_eq]
    cases b 0 with
    | ok d0 => simp
    | error e0 =>
      by_cases hb0 : has429 e0
      · simp only [hb0, if_true]
        cases b 1 with
        | ok d1 => simp
        | error eb1 =>
          by_cases hb1 : has429 eb1
          · simp only [hb1, if_true]
            cases b 2 with
            | ok d2 => simp
            | error eb2 =>
              by_cases hb2 : has429 eb2
              · simp only [hb2, if_true]; simp
              · simp only [hb2, if_false]; simp
          · simp only [hb1, if_false]; simp
      · simp [hb0]

/-- Witness for C4: attempts rate limited twice, then succeeding. -/
theorem C4_witness : analyze_single_image attemptsW = (.ok dataA, [2, 4]) :=
  (C4_retry_policy attemptsW "429" "429" dataA rfl rfl rfl
    (by decide) (by decide)).1

/-- Claim C3 (confirmed): for column labels of length `L ≤ 4` and scores
of length `S ≤ L`, flattening a child yields a record whose 4 indicator
slots hold the `S` scores in the first `S` positions with the remainder
empty and the labels taken from the column labels; placeholder labels
(指標N) are synthesized for positions without a column label; and the
flatten step never raises, for these and for all other inputs. -/
theorem C3_flatten_bounds (area name note : String)
    (headers scores : List String) (hL : headers.length ≤ 4)
    (hS : scores.length ≤ headers.length) :
    ((flattenStudent area headers ⟨name, scores, note⟩).2.details.length =
      scores.length) ∧
    (∀ i, i < scores.length →
      (flattenStudent area headers ⟨name, scores, note⟩).2.details.get? i =
        some ⟨headers.getD i "", scores.getD i ""⟩) ∧
    (∀ i, scores.length ≤ i →
      detailSlot (flattenStudent area headers ⟨name, scores, note⟩).2.details i =
        none) ∧
    (∀ (hs ss : List String) (nm ar nt : String) (j : Nat),
      hs.length ≤ j → j < ss.length → j < 4 →
      ((flattenStudent ar hs ⟨nm, ss, nt⟩).2.details.get? j).map
          (fun dd => dd.idx) =
        some (placeholderLabel j)) ∧
    (∀ (ar : String) (hs : List String) (s : SData),
      (flattenStudentE ar hs s).isSome = true) := by
  have hdet : ∀ (ar : String) (hs ss : List String) (nm nt : String),
      (flattenStudent ar hs ⟨nm, ss, nt⟩).2.details = mkDetails hs ss 0 := by
    intro ar hs ss nm nt
    simp [flattenStudent, flattenLoop_snd]
  refine ⟨?_, ?_, ?_, ?_, ?_⟩
  · rw [hdet]
    exact mkDetails_length_all headers scores 0 (by omega)
  · intro i hi
    rw [hdet, mkDetails_get headers scores 0 i (by omega),
      get?_eq_some_getD scores i hi]
    have hih : i < headers.length := lt_of_lt_of_le hi hS
    simp [hih]
  · intro i hi
    have hlen : (mkDetails headers scores 0).length ≤ i := by
      rw [mkDetails_length_all headers scores 0 (by omega)]
      exact hi
    have hnone : (mkDetails headers scores 0).get? i = none :=
      List.get?_eq_none.mpr hlen
    simp [detailSlot, hdet, hnone]
    exact hlen
  · intro hs ss nm ar nt j hhs hss hj
    rw [hdet, mkDetails_get hs ss 0 j (by omega), get?_eq_some_getD ss j hss]
    have hout : ¬ j < hs.length := by omega
    simp [hout]
  · intro ar hs s
    simp [flattenStudentE_eq]

/-- Witness for C3: four labels, two scores. -/
theorem C3_witness :
    ((flattenStudent "語文區" ["H1", "H2", "H3", "H4"]
        ⟨"Amy", ["A", "R"], "n"⟩).2.details.length = 2) ∧
    detailSlot (flattenStudent "語文區" ["H1", "H2", "H3", "H4"]
        ⟨"Amy", ["A", "R"], "n"⟩).2.details 3 = none :=
  ⟨(C3_flatten_bounds "語文區" "Amy" "n" ["H1", "H2", "H3", "H4"]
      ["A", "R"] (by decide) (by decide)).1,
   (C3_flatten_bounds "語文區" "Amy" "n" ["H1", "H2", "H3", "H4"]
      ["A", "R"] (by decide) (by decide)).2.2.1 3 (by decide)⟩

/-- Claim C9 (confirmed): when a child's scores sequence has more than 4
entries, the flatten step silently drops every score beyond the 4th: the
flattened output equals the output on the first 4 scores alone, the
detail list holds exactly 4 entries, and no error is reported. -/
theorem C9_score_truncation (area name note : String)
    (headers scores : List String) (h : 4 < scores.length) :
    flattenStudent area headers ⟨name, scores, note⟩ =
      flattenStudent area headers ⟨name, scores.take 4, note⟩ ∧
    ((flattenStudent area headers ⟨name, scores, note⟩).2.details.length = 4) ∧
    (flattenStudentE area headers ⟨name, scores, note⟩).isSome = true := by
  have htake : ∀ (row : List (String × String)) (ds : List Detail),
      flattenLoop headers scores 0 row ds =
        flattenLoop headers (scores.take 4) 0 row ds := by
    intro row ds
    simpa using flattenLoop_take headers scores 0 row ds
  have h1 : flattenStudent area headers ⟨name, scores, note⟩ =
      flattenStudent area headers ⟨name, scores.take 4, note⟩ := by
    simp [flattenStudent, htake]
  refine ⟨h1, ?_, ?_⟩
  · have hdet : (flattenStudent area headers ⟨name, scores.take 4, note⟩).2.details =
        mkDetails headers (scores.take 4) 0 := by
      simp [flattenStudent, flattenLoop_snd]
    rw [h1, hdet,
      mkDetails_length_all headers (scores.take 4) 0
        (by rw [List.length_take]; omega),
      List.length_take]
    omega
  · simp [flattenStudentE_eq]

/-- Witness for C9: five scores against four labels. -/
theorem C9_witness :
    flattenStudent "語文區" ["H1", "H2", "H3", "H4"]
        ⟨"Amy", ["A", "R", "D", "N", "A"], "n"⟩ =
      flattenStudent "語文區" ["H1", "H2", "H3", "H4"]
        ⟨"Amy", List.take 4 ["A", "R", "D", "N", "A"], "n"⟩ ∧
    (flattenStudent "語文區" ["H1", "H2", "H3", "H4"]
        ⟨"Amy", ["A", "R", "D", "N", "A"], "n"⟩).2.details.length = 4 :=
  ⟨(C9_score_truncation "語文區" "Amy" "n" ["H1", "H2", "H3", "H4"]
      ["A", "R", "D", "N", "A"] (by decide)).1,
   (C9_score_truncation "語文區" "Amy" "n" ["H1", "H2", "H3", "H4"]
      ["A", "R", "D", "N", "A"] (by decide)).2.1⟩

/-- Counterexample to claim C1: two images submitted in order
`[imgOne, imgTwo]`, both containing the child "Amy" and both succeeding;
when `imgTwo`'s network call completes first (a permutation of the
submission order), `group_by_child` yields Amy's records in the order
`[imgTwo's record, imgOne's record]`, not the submission order the claim
requires. -/
theorem C1_counterexample :
    [imgTwo, imgOne].Perm [imgOne, imgTwo] ∧
    group_by_child
        (flattenResults (process_images_parallel [imgTwo, imgOne] outcomeAB).1).2 =
      [("Amy", [recAmyB, recAmyA])] ∧
    lookupGroup (group_by_child
        (flattenResults (process_images_parallel [imgTwo, imgOne] outcomeAB).1).2)
        "Amy" = [recAmyB, recAmyA] ∧
    [recAmyB, recAmyA] ≠ [recAmyA, recAmyB] := by
  refine ⟨by decide, by decide, by decide, by decide⟩

/-- Claim C1 as amended (proved): the grouped output is built by
iterating the collected results in completion order, and for every child
`group_by_child` yields that child's records in the order induced by the
completion order of the images' network calls (which equals submission
order only when the calls complete in submission order). -/
theorem C1_amended_completion_order (completion : List ImgFile)
    (outcome : ImgFile → Except String TData) (n : String) :
    (process_images_parallel completion outcome).1 =
      completion.filterMap (fun f => (outcome f).toOption) ∧
    lookupGroup (group_by_child
        (flattenResults (process_images_parallel completion outcome).1).2) n =
      ((flattenResults (process_images_parallel completion outcome).1).2).filter
        (fun r => r.name = n) :=
  ⟨congrArg Prod.fst (process_images_parallel_eq completion outcome),
   lookupGroup_group_by_child _ n⟩

/-- Counterexample to claim C2: the report renderer obtains each child's
narrative comment through the remote model environment inside the render
loop, so two renders of the identical grouped input differ when the
model environment differs — the output is not a pure function of a
(grouped, comments) input and the renderer is not network free. -/
theorem C2_counterexample :
    create_word_report envOkReply decFixed groupedAmy ≠
      create_word_report envDown decFixed groupedAmy := by
  decide

/-- Claim C2 as amended (proved): the renderer generates narrative
comments internally via model calls; its output is a deterministic
function of the grouped input together with the comments those calls
produce: whenever the two environments yield identical comments for
every grouped child, the rendered documents are identical. -/
theorem C2_amended_deterministic (env1 env2 : String → Except String String)
    (dec1 dec2 : String → Option Comment)
    (g : List (String × List RawRecord))
    (h : ∀ p ∈ g, generate_teacher_comments_fast env1 dec1 p.1 p.2 =
      generate_teacher_comments_fast env2 dec2 p.1 p.2) :
    create_word_report env1 dec1 g = create_word_report env2 dec2 g :=
  reportLoop_congr env1 env2 dec1 dec2 g 0 h

/-- Witness for the amended C2 at a concrete grouped input. -/
theorem C2_witness :
    create_word_report envOkReply decFixed groupedAmy =
      create_word_report envOkReply decFixed groupedAmy :=
  C2_amended_deterministic envOkReply envOkReply decFixed decFixed groupedAmy
    (fun _ _ => rfl)

end App
